import Mathlib

/-!
Verification of the arXiv publish-log sync pipeline
(`make_todos.py` and `sync_published_to_gcp.py`).

The log is modelled as a list of physical lines (each line's text without
its trailing newline).  The regular-expression searches of the source are
embedded as explicit matchers over `List Char`; each matcher's doc comment
records the regex it embeds together with the greedy-matching convention
(`^.*MARKER(.*)$` under `re.MULTILINE` captures the suffix after the *last*
occurrence of the marker on the first line containing one, because the
leading `.*` is greedy; an unanchored `MARKER(.*)` captures after the
*first* occurrence, because `re.search` returns the leftmost match).
-/

namespace SyncToGcp

/-- One physical line of a log file, without its trailing newline. -/
abbrev Line := List Char

/-- `pat` occurs as a contiguous substring of `s`. -/
def containsSub (pat : List Char) : List Char → Bool
  | [] => pat.isEmpty
  | c :: rest => pat.isPrefixOf (c :: rest) || containsSub pat rest

/-- Suffix of `s` after the first occurrence of `pat`: the capture of an
unanchored `PAT(.*)` (leftmost match, greedy group to end of line). -/
def firstAfter (pat : List Char) : List Char → Option (List Char)
  | [] => none
  | c :: rest =>
    if pat.isPrefixOf (c :: rest) then some ((c :: rest).drop pat.length)
    else firstAfter pat rest

/-- Suffix of `s` after the last occurrence of `pat`: the capture of
`^.*PAT(.*)$` on a single line (the leading `.*` is greedy). -/
def lastAfter (pat : List Char) : List Char → Option (List Char)
  | [] => none
  | c :: rest =>
    match lastAfter pat rest with
    | some r => some r
    | none =>
      if pat.isPrefixOf (c :: rest) then some ((c :: rest).drop pat.length)
      else none

/-- Like `lastAfter`, but the captured suffix must satisfy `p`: the capture
of `^.*PAT(GROUP)$` where the group's shape constrains the suffix, under
backtracking of the greedy leading `.*`. -/
def lastAfterSuch (pat : List Char) (p : List Char → Bool) : List Char → Option (List Char)
  | [] => none
  | c :: rest =>
    match lastAfterSuch pat p rest with
    | some r => some r
    | none =>
      if pat.isPrefixOf (c :: rest) && p ((c :: rest).drop pat.length) then
        some ((c :: rest).drop pat.length)
      else none

/-- Shape of a group matching `.*.pdf` (one wildcard char, then `pdf`):
length at least 4 and ending in `pdf`. -/
def pdfShape (s : List Char) : Bool :=
  match s.reverse with
  | 'f' :: 'd' :: 'p' :: _ :: _ => true
  | _ => false

/-- Shape of a group matching `.*.html.gz` (wildcard, `html`, wildcard, `gz`). -/
def htmlGzShape (s : List Char) : Bool :=
  match s.reverse with
  | 'z' :: 'g' :: _ :: 'l' :: 'm' :: 't' :: 'h' :: _ :: _ => true
  | _ => false

/-- Shape of a group matching `.*.gz` (one wildcard char, then `gz`). -/
def gzShape (s : List Char) : Bool :=
  match s.reverse with
  | 'z' :: 'g' :: _ :: _ => true
  | _ => false

/-- Multiline search for `^.*PAT(.*)$` over a block: first line containing
`pat`, capture after its last occurrence on that line. -/
def searchCapture (pat : List Char) : List Line → Option (List Char)
  | [] => none
  | l :: rest =>
    match lastAfter pat l with
    | some g => some g
    | none => searchCapture pat rest

/-- Multiline search for `^.*PAT(GROUP)$` with a shape constraint on the group. -/
def searchCaptureSuch (pat : List Char) (p : List Char → Bool) : List Line → Option (List Char)
  | [] => none
  | l :: rest =>
    match lastAfterSuch pat p l with
    | some g => some g
    | none => searchCaptureSuch pat p rest

/-- Unanchored search for `PAT(.*)`: first occurrence in the whole text. -/
def searchFirstCapture (pat : List Char) : List Line → Option (List Char)
  | [] => none
  | l :: rest =>
    match firstAfter pat l with
    | some g => some g
    | none => searchFirstCapture pat rest

/-- Two-line search for `new_r = r"^.* new submission\n.* paper_id: (.*)$"`
(`re.MULTILINE`): a line ending in ` new submission` whose successor
contains ` paper_id: `; capture after the last occurrence on the successor. -/
def searchNew : List Line → Option (List Char)
  | l1 :: l2 :: rest =>
    if (" new submission".toList).isSuffixOf l1 then
      match lastAfter (" paper_id: ".toList) l2 with
      | some g => some g
      | none => searchNew (l2 :: rest)
    else searchNew (l2 :: rest)
  | _ => none

/-- Four-line search for
`r"^.*MARKER(.*)\n.*\n.* old version: (\d*)\n.* new version: (\d*)"`
(`rep_r` / `wdr_r`): line `i` contains the marker, line `i+2` has an
occurrence of ` old version: ` whose whole remaining suffix is digits
(possibly empty: the group `(\d*)` runs to the newline), and line `i+3`
contains ` new version: `.  Returns groups 1 and 3; group 3 is the maximal
digit run after the last occurrence of ` new version: `. -/
def searchRepLike (marker : List Char) : List Line → Option (List Char × List Char)
  | l1 :: l2 :: l3 :: l4 :: rest =>
    match lastAfter marker l1,
          lastAfterSuch (" old version: ".toList) (fun s => s.all Char.isDigit) l3,
          lastAfter (" new version: ".toList) l4 with
    | some g1, some _, some g4 => some (g1, g4.takeWhile Char.isDigit)
    | _, _, _ => searchRepLike marker (l2 :: l3 :: l4 :: rest)
  | _ => none

/-- `test_r = r" Test Submission\. Skipping\."`: an unanchored search, i.e.
some line of the block contains the literal marker. -/
def testPat : List Char := " Test Submission. Skipping.".toList

def hasTestMarker (txt : List Line) : Bool := txt.any (fun l => containsSub testPat l)

/-- Capture group 2 of `move_r = r"^.* Moved (.*) => (.*)$"` on one line:
under greedy matching, the chosen ` Moved ` occurrence is the last one
followed by an ` => `, and group 2 is the suffix after the last ` => `
after it. -/
def moveG2 (l : Line) : Option (List Char) :=
  match lastAfterSuch (" Moved ".toList) (fun s => containsSub (" => ".toList) s) l with
  | some s => lastAfter (" => ".toList) s
  | none => none

/-- All group-2 captures of `move_r.finditer(txt)`, one per matching line,
in file order (each match spans to its line's end, so lines match at most
once). -/
def moveTargets (txt : List Line) : List (List Char) := txt.filterMap moveG2

/-- `sub_start_r = r".* submission (\d*)$"` used with `re.match`: the line
ends with ` submission ` followed by digits only (possibly none); the
group is that digit suffix, after the last such occurrence. -/
def startGroup (l : Line) : Option (List Char) :=
  lastAfterSuch (" submission ".toList) (fun s => s.all Char.isDigit) l

/-- `sub_end_r = r".*Finished processing submission "` used with
`re.match`: the line contains the literal anywhere. -/
def isEndLine (l : Line) : Bool := containsSub ("Finished processing submission ".toList) l

/-- The segmenter state machine of `make_todos`: `none` = outside a
submission, `some (id, acc)` = inside the submission with start-group `id`,
having accumulated the lines `acc` (the start line itself is not kept).
A block is closed by the first end line, which is included in its text;
a block still open at end of file is dropped. -/
def segLoop : Option (List Char × List Line) → List Line → List (List Char × List Line)
  | _, [] => []
  | none, l :: rest =>
    match startGroup l with
    | some g => segLoop (some (g, [])) rest
    | none => segLoop none rest
  | some (g, acc), l :: rest =>
    if isEndLine l then (g, acc ++ [l]) :: segLoop none rest
    else segLoop (some (g, acc ++ [l])) rest

/-- The submission blocks of a log, in file order. -/
def segmentLog (lines : List Line) : List (List Char × List Line) := segLoop none lines

/-- Modelled from the spec: the external identifier-parsing library
(`identifier.Identifier`, an external collaborator per the design);
only the fields this program reads. -/
structure Identifier where
  id : String
  version : Nat
  idv : String
  is_old_id : Bool
  archive : String
  yymm : String
  filename : String
deriving DecidableEq

/-- One work item `(subid, subtype, idv, action, target)` of the todo
list; `target` is the fifth tuple component. -/
structure Action where
  subid : String
  subtype : String
  idv : String
  op : String
  target : String
deriving DecidableEq

/-- `FTP_PREFIX = '/data/ftp/'` of `make_todos.py`. -/
def FTP_ROOT : String := "/data/ftp/"

/-- `upload_abs_acts`: the single abs upload for cross / jref events; the
target is an f-string that inserts a `/` after `FTP_PREFIX`, which itself
ends in `/`. -/
def uploadAbsActs (subid : String) (aid : Identifier) (subtype : String) : List Action :=
  let archive := if !aid.is_old_id then "arxiv" else aid.archive
  [⟨subid, subtype, aid.idv, "upload",
    FTP_ROOT ++ "/" ++ archive ++ "/papers/" ++ aid.yymm ++ "/" ++ aid.filename ++ ".abs"⟩]

def absPat : List Char := " absfile: ".toList

def srcPat : List Char := " Document source: ".toList

/-- The abs part of `upload_abs_src_acts`: one upload when an
` absfile: ` line is found, nothing otherwise. -/
def absActsOf (subid : String) (aid : Identifier) (subtype : String) (txt : List Line) :
    List Action :=
  match searchCapture absPat txt with
  | some g => [⟨subid, subtype, aid.idv, "upload", String.mk g⟩]
  | none => []

/-- `upload_abs_src_acts`: abs upload (when found), then the source upload
chosen by priority pdf, then html.gz, then generic .gz; the generic case
additionally emits one build+upload for `{id}v{version}`. -/
def uploadAbsSrcActs (subid : String) (aid : Identifier) (subtype : String) (txt : List Line) :
    List Action :=
  let a0 := absActsOf subid aid subtype txt
  match searchCaptureSuch srcPat pdfShape txt with
  | some g => a0 ++ [⟨subid, subtype, aid.idv, "upload", String.mk g⟩]
  | none =>
    match searchCaptureSuch srcPat htmlGzShape txt with
    | some g => a0 ++ [⟨subid, subtype, aid.idv, "upload", String.mk g⟩]
    | none =>
      match searchCaptureSuch srcPat gzShape txt with
      | some g =>
        a0 ++ [⟨subid, subtype, aid.idv, "upload", String.mk g⟩,
               ⟨subid, subtype, aid.idv, "build+upload", aid.id ++ "v" ++ toString aid.version⟩]
      | none => a0

/-- `rep_version_acts`: one upload per ` Moved X => Y` line, targeting `Y`. -/
def repVersionActs (subid : String) (aid : Identifier) (subtype : String) (txt : List Line) :
    List Action :=
  (moveTargets txt).map (fun g => ⟨subid, subtype, aid.idv, "upload", String.mk g⟩)

def repMarker : List Char := " replacement for ".toList

def wdrMarker : List Char := " withdrawal of ".toList

def crossPat : List Char := " cross for ".toList

def jrefPat : List Char := " journal ref for ".toList

/-- The classification of one submission block and the actions it
contributes, mirroring the per-block loop of `make_todos`: test marker
(drop), then new, replacement, withdrawal, cross, journal-ref, first match
winning; a block matching nothing contributes no actions.  `resolve`
models the external `Identifier` constructor; `none` models it raising,
which propagates out of `make_todos`. -/
def blockTodos (resolve : String → Option Identifier) (subid : String) (txt : List Line) :
    Option (List Action) :=
  if hasTestMarker txt then some []
  else
    match searchNew txt with
    | some g =>
      match resolve (String.mk g ++ "v1") with
      | some aid => some (uploadAbsSrcActs subid aid "new" txt)
      | none => none
    | none =>
      match searchRepLike repMarker txt with
      | some (g1, g3) =>
        match resolve (String.mk g1 ++ "v" ++ String.mk g3) with
        | some aid =>
          some (repVersionActs subid aid "rep" txt ++ uploadAbsSrcActs subid aid "rep" txt)
        | none => none
      | none =>
        match searchRepLike wdrMarker txt with
        | some (g1, g3) =>
          match resolve (String.mk g1 ++ "v" ++ String.mk g3) with
          | some aid =>
            some ((repVersionActs subid aid "wdr" txt ++
                   uploadAbsSrcActs subid aid "wdr" txt).filter
              (fun a => a.op != "build+upload"))
          | none => none
        | none =>
          match searchFirstCapture crossPat txt with
          | some g =>
            match resolve (String.mk g) with
            | some aid => some (uploadAbsActs subid aid "cross")
            | none => none
          | none =>
            match searchFirstCapture jrefPat txt with
            | some g =>
              match resolve (String.mk g) with
              | some aid => some (uploadAbsActs subid aid "jref")
              | none => none
            | none => some []

/-- Concatenates the per-block actions, aborting (like an uncaught
exception) when any block's identifier fails to resolve. -/
def todosOfBlocks (resolve : String → Option Identifier) :
    List (List Char × List Line) → Option (List Action)
  | [] => some []
  | (g, txt) :: rest => do
    let a ← blockTodos resolve (String.mk g) txt
    let r ← todosOfBlocks resolve rest
    pure (a ++ r)

/-- `make_todos`: segment the log, then classify and plan each block. -/
def makeTodos (resolve : String → Option Identifier) (lines : List Line) :
    Option (List Action) :=
  todosOfBlocks resolve (segmentLog lines)

/-! ### `sync_published_to_gcp.py` -/

/-- Python `str.replace`: replace every non-overlapping occurrence of the
(non-empty) pattern `p0 :: ps`, scanning left to right. -/
def replaceAll (p0 : Char) (ps repl : List Char) : List Char → List Char
  | [] => []
  | c :: rest =>
    if (p0 :: ps).isPrefixOf (c :: rest) then
      repl ++ replaceAll p0 ps repl (rest.drop ps.length)
    else c :: replaceAll p0 ps repl rest
termination_by s => s.length
decreasing_by
  all_goals simp [List.length_drop]
  omega

def cacheRootChars : List Char := "/cache/".toList

def dataRootChars : List Char := "/data/".toList

/-- `path_to_bucket_key`: Python
`str(pdf).replace('/cache/','')` / `str(pdf).replace('/data/','')` behind
`startswith` checks; `none` models the `ValueError` raised for paths under
neither root. -/
def path_to_bucket_key (p : List Char) : Option (List Char) :=
  if cacheRootChars.isPrefixOf p then some (replaceAll '/' ("cache/".toList) [] p)
  else if dataRootChars.isPrefixOf p then some (replaceAll '/' ("data/".toList) [] p)
  else none

/-- Collapse runs of `/` into a single `/`, the normalisation
`pathlib.Path` applies to the f-string in `pdf_cache_path`. -/
def collapseSlashes : List Char → List Char
  | [] => []
  | c :: rest =>
    if c == '/' then '/' :: collapseSlashes (rest.dropWhile (fun d => d == '/'))
    else c :: collapseSlashes rest
termination_by s => s.length
decreasing_by
  · have := (List.dropWhile_sublist (l := rest) (fun d => d == '/')).length_le
    simp
    omega
  · simp

/-- `pathlib.Path.suffix`: the final extension of the last path component,
empty when the name has no dot, starts with its only dot, or ends in a dot. -/
def pathSuffix (p : List Char) : List Char :=
  let q := (p.reverse.dropWhile (fun c => c == '/')).reverse
  let name := match lastAfter ['/'] q with
    | some n => n
    | none => q
  match lastAfter ['.'] name with
  | some t => if t.length + 2 ≤ name.length && !t.isEmpty then '.' :: t else []
  | none => []

/-- `mime_from_fname`: content type from the file's extension. -/
def mime_from_fname (p : String) : String :=
  if pathSuffix p.toList = ".pdf".toList then "application/pdf"
  else if pathSuffix p.toList = ".gz".toList then "application/gzip"
  else if pathSuffix p.toList = ".abs".toList then "text/plain"
  else ""

/-- A remote object: its bytes (`blob.size` is their count) and the
content type it was uploaded with. -/
structure Blob where
  bytes : List Nat
  contentType : String
deriving DecidableEq

def Blob.size (b : Blob) : Nat := b.bytes.length

/-- A local file: its path and bytes (`stat().st_size` is their count). -/
structure LocalFile where
  path : String
  bytes : List Nat
deriving DecidableEq

def LocalFile.size (f : LocalFile) : Nat := f.bytes.length

/-- The GS bucket, as a map from keys to blobs (`get_blob` returns `none`
when no object exists at the key). -/
def GsStore := String → Option Blob

/-- The effect of `bucket.blob(key).upload_from_file(...)`. -/
def putBlob (s : GsStore) (key : String) (b : Blob) : GsStore :=
  fun k => if k = key then some b else s k

/-- `upload` of `sync_published_to_gcp.py`: fetch the remote object's
metadata; upload the full local content (with the extension-derived
content type) when the object is absent or of different size, reporting
`("uploaded", size)`; otherwise transfer nothing, leave the store
untouched and report `("already_on_gs", 0)`. -/
def upload (store : GsStore) (f : LocalFile) (key : String) : (String × Nat) × GsStore :=
  match store key with
  | none => (("uploaded", f.size), putBlob store key ⟨f.bytes, mime_from_fname f.path⟩)
  | some b =>
    if b.size ≠ f.size then
      (("uploaded", f.size), putBlob store key ⟨f.bytes, mime_from_fname f.path⟩)
    else
      (("already_on_gs", 0), store)

/-- `PS_CACHE_PREFIX = '/cache/ps_cache/'`. -/
def PS_CACHE_ROOT : String := "/cache/ps_cache/"

/-- `PDF_WAIT_SEC = 60 * 10`, the maximum seconds to wait for a PDF. -/
def PDF_WAIT_SEC : Nat := 60 * 10

/-- The wait bound in milliseconds (time is modelled in whole ms). -/
def pdfWaitMs : Nat := PDF_WAIT_SEC * 1000

/-- `pdf_cache_path`: the f-string inserts a `/` after `PS_CACHE_PREFIX`
(which ends in `/`); `pathlib.Path` then collapses the doubled slash. -/
def pdf_cache_path (aid : Identifier) : String :=
  let archive := if !aid.is_old_id then "arxiv" else aid.archive
  String.mk (collapseSlashes
    (PS_CACHE_ROOT ++ "/" ++ archive ++ "/pdf/" ++ aid.yymm ++ "/" ++ aid.filename ++
      "v" ++ toString aid.version ++ ".pdf").toList)

/-- `arxiv_pdf_url`. -/
def arxiv_pdf_url (host : String) (aid : Identifier) : String :=
  "https://" ++ host ++ "/pdf/" ++ aid.filename ++ "v" ++ toString aid.version ++ ".pdf?nocdn=1"

/-- The two exception sites of `ensure_pdf` (plus the post-loop re-check). -/
inductive EnsureErr where
  | badStatus (code : Nat)
  | timedOut
  | notCreated
deriving DecidableEq

/-- The result triple of `ensure_pdf` (file, url, status message);
the returned millisecond duration is not modelled. -/
structure EnsureOutcome where
  pdfFile : String
  url : String
  status : Option String
deriving DecidableEq

/-- The poll loop of `ensure_pdf`:
`while not pdf_file.exists(): if elapsed > PDF_WAIT_SEC: raise; sleep(0.2)`.
`existsAt k` is the result of the k-th `pdf_file.exists()` call and
`elapsedAt k` the elapsed ms when iteration k checks the deadline; `none`
models running out of `fuel` (i.e. looping forever). -/
def pdfPollLoop (existsAt : Nat → Bool) (elapsedAt : Nat → Nat) :
    Nat → Nat → Option (Except Unit Nat)
  | 0, _ => none
  | fuel + 1, k =>
    if existsAt k then some (Except.ok k)
    else if pdfWaitMs < elapsedAt k then some (Except.error ())
    else pdfPollLoop existsAt elapsedAt fuel (k + 1)

/-- `ensure_pdf`: return immediately when the cache file exists (check 0),
otherwise issue one GET (recorded in the returned request list), fail on a
non-200 status, then poll checks 1, 2, … until the file appears or the
deadline passes; after the loop one more `exists()` check guards the
success return. -/
def ensure_pdf (aid : Identifier) (host : String) (existsAt : Nat → Bool)
    (respStatus : Nat) (elapsedAt : Nat → Nat) (fuel : Nat) :
    Option (Except EnsureErr EnsureOutcome × List String) :=
  let pdfFile := pdf_cache_path aid
  let url := arxiv_pdf_url host aid
  if existsAt 0 then some (Except.ok ⟨pdfFile, url, some "already exists"⟩, [])
  else if respStatus ≠ 200 then some (Except.error (EnsureErr.badStatus respStatus), [url])
  else
    match pdfPollLoop existsAt elapsedAt fuel 1 with
    | none => none
    | some (Except.error _) => some (Except.error EnsureErr.timedOut, [url])
    | some (Except.ok k) =>
      if existsAt (k + 1) then some (Except.ok ⟨pdfFile, url, none⟩, [url])
      else some (Except.error EnsureErr.notCreated, [url])

/-! ### Concrete logs, resolver and store used to instantiate the theorems -/

/-- Modelled from the spec: the external identifier library's behaviour
on the concrete identifiers appearing in the sample logs below (modern
identifiers resolve to the canonical `arxiv` archive; the legacy
identifier carries its own archive name). -/
def resolveEx : String → Option Identifier := fun s =>
  if s = "2201.00001v2" then
    some ⟨"2201.00001", 2, "2201.00001v2", false, "arxiv", "2201", "2201.00001"⟩
  else if s = "2201.00002v1" then
    some ⟨"2201.00002", 1, "2201.00002v1", false, "arxiv", "2201", "2201.00002"⟩
  else if s = "math/0703001" then
    some ⟨"math/0703001", 1, "math/0703001v1", true, "math", "0703", "0703001"⟩
  else none

/-- A withdrawal block whose Document source is a generic `.gz`. -/
def wdrLinesEx : List Line :=
  [("p submission 1001").toList,
   ("d withdrawal of 2201.00001").toList,
   ("f").toList,
   ("g old version: 1").toList,
   ("h new version: 2").toList,
   (" absfile: /data/ftp/arxiv/papers/2201/2201.00001.abs").toList,
   (" Document source: /data/ftp/arxiv/papers/2201/2201.00001.tar.gz").toList,
   ("zFinished processing submission 1001").toList]

/-- A new-submission block whose ` absfile: ` line ends right after the
marker, so the abs capture is empty. -/
def absEmptyLinesEx : List Line :=
  [("process submission 1002").toList,
   ("a new submission").toList,
   (" paper_id: 2201.00002").toList,
   (" absfile: ").toList,
   ("Finished processing submission 1002.").toList]

/-- A cross-listing block for a legacy identifier. -/
def crossLinesEx : List Line :=
  [("x submission 7").toList,
   ("date cross for math/0703001").toList,
   ("yFinished processing submission 7").toList]

/-- Block text containing a test marker alongside new-submission data. -/
def testTxtEx : List Line :=
  [("a new submission").toList,
   (" paper_id: 2201.00002").toList,
   (" Test Submission. Skipping.").toList,
   ("Finished processing submission 1003.").toList]

/-- Block text matching none of the classification patterns. -/
def noneTxtEx : List Line :=
  [("nothing to see here").toList,
   ("Finished processing submission 1004.").toList]

/-- Block text declaring a pdf Document source. -/
def pdfTxtEx : List Line :=
  [(" absfile: /data/ftp/arxiv/papers/2201/2201.00003.abs").toList,
   (" Document source: /data/ftp/arxiv/papers/2201/2201.00003.pdf").toList]

/-- Block text declaring a generic compressed Document source. -/
def texTxtEx : List Line :=
  [(" absfile: /data/ftp/arxiv/papers/2201/2201.00003.abs").toList,
   (" Document source: /data/ftp/arxiv/papers/2201/2201.00003.tar.gz").toList]

/-- An identifier for the ensure-pdf and planner theorems. -/
def aidEx : Identifier :=
  ⟨"2201.00001", 2, "2201.00001v2", false, "arxiv", "2201", "2201.00001"⟩

/-- The empty remote store. -/
def emptyStoreEx : GsStore := fun _ => none

/-- A small local file. -/
def fileEx : LocalFile :=
  ⟨"/cache/ps_cache/arxiv/pdf/2201/2201.00001v2.pdf", [7, 8, 9]⟩

/-! ### Helper lemmas about the matchers -/

theorem lastAfterSuch_sat (pat : List Char) (p : List Char → Bool) :
    ∀ s g, lastAfterSuch pat p s = some g → p g = true := by
  intro s
  induction s with
  | nil => intro g h; simp [lastAfterSuch] at h
  | cons c rest ih =>
    intro g h
    rw [lastAfterSuch] at h
    cases hrec : lastAfterSuch pat p rest with
    | some r =>
      rw [hrec] at h
      simp at h
      subst h
      exact ih r hrec
    | none =>
      rw [hrec] at h
      simp only at h
      by_cases hcond : (pat.isPrefixOf (c :: rest) && p ((c :: rest).drop pat.length)) = true
      · rw [if_pos hcond] at h
        simp only [Bool.and_eq_true] at hcond
        cases h
        exact hcond.2
      · rw [if_neg hcond] at h
        cases h

theorem searchCaptureSuch_sat (pat : List Char) (p : List Char → Bool) :
    ∀ txt g, searchCaptureSuch pat p txt = some g → p g = true := by
  intro txt
  induction txt with
  | nil => intro g h; simp [searchCaptureSuch] at h
  | cons l rest ih =>
    intro g h
    rw [searchCaptureSuch] at h
    cases hrec : lastAfterSuch pat p l with
    | some r =>
      rw [hrec] at h
      simp at h
      subst h
      exact lastAfterSuch_sat pat p l r hrec
    | none =>
      rw [hrec] at h
      simp only at h
      exact ih g h

theorem searchCapture_exists_line (pat : List Char) :
    ∀ txt g, searchCapture pat txt = some g → ∃ l ∈ txt, lastAfter pat l = some g := by
  intro txt
  induction txt with
  | nil => intro g h; simp [searchCapture] at h
  | cons l rest ih =>
    intro g h
    rw [searchCapture] at h
    cases hrec : lastAfter pat l with
    | some r =>
      rw [hrec] at h
      simp at h
      subst h
      exact ⟨l, by simp, hrec⟩
    | none =>
      rw [hrec] at h
      simp only at h
      obtain ⟨x, hx, hlast⟩ := ih g h
      exact ⟨x, by simp [hx], hlast⟩

theorem moveTargets_exists_line (txt : List Line) :
    ∀ g ∈ moveTargets txt, ∃ l ∈ txt, moveG2 l = some g := by
  intro g hg
  obtain ⟨l, hl, hm⟩ := List.mem_filterMap.mp hg
  exact ⟨l, hl, hm⟩

theorem pdfShape_ne_nil {g : List Char} (h : pdfShape g = true) : g ≠ [] := by
  intro hg
  subst hg
  simp [pdfShape] at h

theorem htmlGzShape_ne_nil {g : List Char} (h : htmlGzShape g = true) : g ≠ [] := by
  intro hg
  subst hg
  simp [htmlGzShape] at h

theorem gzShape_ne_nil {g : List Char} (h : gzShape g = true) : g ≠ [] := by
  intro hg
  subst hg
  simp [gzShape] at h

theorem mk_ne_empty {g : List Char} (h : g ≠ []) : String.mk g ≠ "" := by
  intro he
  apply h
  have : (String.mk g).data = ("" : String).data := by rw [he]
  simpa using this

theorem append_ne_empty_left {x y : String} (h : x ≠ "") : x ++ y ≠ "" := by
  intro he
  apply h
  have hd : x.data ++ y.data = [] := by
    have := congrArg String.data he
    simpa [String.data_append] using this
  have hx : x.data = [] := (List.append_eq_nil.mp hd).1
  have hmk : x = String.mk x.data := rfl
  rw [hmk, hx]

/-! ### Helper lemmas about the action builders -/

theorem mem_absActsOf (subid : String) (aid : Identifier) (st : String) (txt : List Line) :
    ∀ a ∈ absActsOf subid aid st txt,
      a.subtype = st ∧ a.op = "upload" ∧
      ∃ g, searchCapture absPat txt = some g ∧ a.target = String.mk g := by
  intro a ha
  rw [absActsOf] at ha
  cases habs : searchCapture absPat txt with
  | some g =>
    rw [habs] at ha
    simp at ha
    subst ha
    exact ⟨rfl, rfl, g, rfl, rfl⟩
  | none =>
    rw [habs] at ha
    simp at ha

theorem mem_uploadAbsSrcActs (subid : String) (aid : Identifier) (st : String) (txt : List Line) :
    ∀ a ∈ uploadAbsSrcActs subid aid st txt,
      a.subtype = st ∧
      (a ∈ absActsOf subid aid st txt ∨
       (a.op = "upload" ∧ ∃ g, (searchCaptureSuch srcPat pdfShape txt = some g ∨
            searchCaptureSuch srcPat htmlGzShape txt = some g ∨
            searchCaptureSuch srcPat gzShape txt = some g) ∧ a.target = String.mk g) ∨
       (a.op = "build+upload" ∧ a.target = aid.id ++ "v" ++ toString aid.version)) := by
  intro a ha
  simp only [uploadAbsSrcActs] at ha
  cases hpdf : searchCaptureSuch srcPat pdfShape txt with
  | some g =>
    rw [hpdf] at ha
    rcases List.mem_append.mp ha with h0 | h1
    · exact ⟨(mem_absActsOf subid aid st txt a h0).1, Or.inl h0⟩
    · simp at h1
      subst h1
      exact ⟨rfl, Or.inr (Or.inl ⟨rfl, g, Or.inl rfl, rfl⟩)⟩
  | none =>
    rw [hpdf] at ha
    simp only at ha
    cases hhtml : searchCaptureSuch srcPat htmlGzShape txt with
    | some g =>
      rw [hhtml] at ha
      rcases List.mem_append.mp ha with h0 | h1
      · exact ⟨(mem_absActsOf subid aid st txt a h0).1, Or.inl h0⟩
      · simp at h1
        subst h1
        exact ⟨rfl, Or.inr (Or.inl ⟨rfl, g, Or.inr (Or.inl rfl), rfl⟩)⟩
    | none =>
      rw [hhtml] at ha
      simp only at ha
      cases htex : searchCaptureSuch srcPat gzShape txt with
      | some g =>
        rw [htex] at ha
        rcases List.mem_append.mp ha with h0 | h1
        · exact ⟨(mem_absActsOf subid aid st txt a h0).1, Or.inl h0⟩
        · simp at h1
          rcases h1 with h1 | h1
          · subst h1
            exact ⟨rfl, Or.inr (Or.inl ⟨rfl, g, Or.inr (Or.inr rfl), rfl⟩)⟩
          · subst h1
            exact ⟨rfl, Or.inr (Or.inr ⟨rfl, rfl⟩)⟩
      | none =>
        rw [htex] at ha
        simp only at ha
        exact ⟨(mem_absActsOf subid aid st txt a ha).1, Or.inl ha⟩

theorem mem_repVersionActs (subid : String) (aid : Identifier) (st : String) (txt : List Line) :
    ∀ a ∈ repVersionActs subid aid st txt,
      a.subtype = st ∧ a.op = "upload" ∧
      ∃ g ∈ moveTargets txt, a.target = String.mk g := by
  intro a ha
  rw [repVersionActs] at ha
  obtain ⟨g, hg, rfl⟩ := List.mem_map.mp ha
  exact ⟨rfl, rfl, g, hg, rfl⟩

theorem mem_uploadAbsActs (subid : String) (aid : Identifier) (st : String) :
    ∀ a ∈ uploadAbsActs subid aid st,
      a.subtype = st ∧ a.op = "upload" ∧
      a.target = FTP_ROOT ++ "/" ++ (if !aid.is_old_id then "arxiv" else aid.archive) ++
        "/papers/" ++ aid.yymm ++ "/" ++ aid.filename ++ ".abs" := by
  intro a ha
  simp only [uploadAbsActs] at ha
  simp at ha
  subst ha
  refine ⟨rfl, rfl, ?_⟩
  cases h : aid.is_old_id <;> simp [h]

theorem absActsOf_filter_build (subid : String) (aid : Identifier) (st : String)
    (txt : List Line) :
    (absActsOf subid aid st txt).filter (fun a => a.op == "build+upload") = [] := by
  rw [absActsOf]
  cases habs : searchCapture absPat txt with
  | some g => simp [List.filter]
  | none => simp

/-! ### Helper lemmas about the per-block classification -/

theorem blockTodos_cases (resolve : String → Option Identifier) (subid : String)
    (txt : List Line) (acts : List Action)
    (h : blockTodos resolve subid txt = some acts) :
    acts = [] ∨
    (∃ aid, acts = uploadAbsSrcActs subid aid "new" txt) ∨
    (∃ aid, acts = repVersionActs subid aid "rep" txt ++ uploadAbsSrcActs subid aid "rep" txt) ∨
    (∃ aid, acts = (repVersionActs subid aid "wdr" txt ++
        uploadAbsSrcActs subid aid "wdr" txt).filter (fun a => a.op != "build+upload")) ∨
    (∃ aid, acts = uploadAbsActs subid aid "cross") ∨
    (∃ aid, acts = uploadAbsActs subid aid "jref") := by
  rw [blockTodos] at h
  by_cases htest : hasTestMarker txt = true
  · rw [if_pos htest] at h
    cases h
    exact Or.inl rfl
  · rw [if_neg htest] at h
    cases hnew : searchNew txt with
    | some g =>
      rw [hnew] at h
      simp only at h
      cases hres : resolve (String.mk g ++ "v1") with
      | some aid =>
        rw [hres] at h
        cases h
        exact Or.inr (Or.inl ⟨aid, rfl⟩)
      | none => rw [hres] at h; cases h
    | none =>
      rw [hnew] at h
      simp only at h
      cases hrep : searchRepLike repMarker txt with
      | some q =>
        obtain ⟨g1, g3⟩ := q
        rw [hrep] at h
        simp only at h
        cases hres : resolve (String.mk g1 ++ "v" ++ String.mk g3) with
        | some aid =>
          rw [hres] at h
          cases h
          exact Or.inr (Or.inr (Or.inl ⟨aid, rfl⟩))
        | none => rw [hres] at h; cases h
      | none =>
        rw [hrep] at h
        simp only at h
        cases hwdr : searchRepLike wdrMarker txt with
        | some q =>
          obtain ⟨g1, g3⟩ := q
          rw [hwdr] at h
          simp only at h
          cases hres : resolve (String.mk g1 ++ "v" ++ String.mk g3) with
          | some aid =>
            rw [hres] at h
            cases h
            exact Or.inr (Or.inr (Or.inr (Or.inl ⟨aid, rfl⟩)))
          | none => rw [hres] at h; cases h
        | none =>
          rw [hwdr] at h
          simp only at h
          cases hcross : searchFirstCapture crossPat txt with
          | some g =>
            rw [hcross] at h
            simp only at h
            cases hres : resolve (String.mk g) with
            | some aid =>
              rw [hres] at h
              cases h
              exact Or.inr (Or.inr (Or.inr (Or.inr (Or.inl ⟨aid, rfl⟩))))
            | none => rw [hres] at h; cases h
          | none =>
            rw [hcross] at h
            simp only at h
            cases hjref : searchFirstCapture jrefPat txt with
            | some g =>
              rw [hjref] at h
              simp only at h
              cases hres : resolve (String.mk g) with
              | some aid =>
                rw [hres] at h
                cases h
                exact Or.inr (Or.inr (Or.inr (Or.inr (Or.inr ⟨aid, rfl⟩))))
              | none => rw [hres] at h; cases h
            | none =>
              rw [hjref] at h
              simp only at h
              cases h
              exact Or.inl rfl

theorem todosOfBlocks_mem (resolve : String → Option Identifier) :
    ∀ bs todo, todosOfBlocks resolve bs = some todo →
      ∀ a ∈ todo, ∃ g txt acts, (g, txt) ∈ bs ∧
        blockTodos resolve (String.mk g) txt = some acts ∧ a ∈ acts := by
  intro bs
  induction bs with
  | nil =>
    intro todo h a ha
    rw [todosOfBlocks] at h
    cases h
    simp at ha
  | cons b rest ih =>
    obtain ⟨g, txt⟩ := b
    intro todo h a ha
    rw [todosOfBlocks] at h
    cases hb : blockTodos resolve (String.mk g) txt with
    | none => rw [hb] at h; simp at h
    | some acts =>
      rw [hb] at h
      cases hr : todosOfBlocks resolve rest with
      | none => rw [hr] at h; simp at h
      | some rtodo =>
        rw [hr] at h
        simp at h
        subst h
        rcases List.mem_append.mp ha with h1 | h2
        · exact ⟨g, txt, acts, by simp, hb, h1⟩
        · obtain ⟨g2, txt2, acts2, hmem, hbt, ha2⟩ := ih rtodo hr a h2
          exact ⟨g2, txt2, acts2, by simp [hmem], hbt, ha2⟩

/-- C3: the action list produced by `make_todos` contains no
`build+upload` action for a withdrawal (`wdr`) event: the withdrawal
branch filters out every `build+upload` action, even when the block's
` Document source: ` line indicates a generic `.gz` (TeX-like) source. -/
theorem c3_wdr_never_build (resolve : String → Option Identifier) (lines : List Line)
    (todo : List Action) (h : makeTodos resolve lines = some todo) :
    ∀ a ∈ todo, a.subtype = "wdr" → a.op ≠ "build+upload" := by
  intro a ha hw
  obtain ⟨g, txt, acts, _, hbt, hacts⟩ :=
    todosOfBlocks_mem resolve (segmentLog lines) todo h a ha
  rcases blockTodos_cases resolve (String.mk g) txt acts hbt with
    h0 | ⟨aid, rfl⟩ | ⟨aid, rfl⟩ | ⟨aid, rfl⟩ | ⟨aid, rfl⟩ | ⟨aid, rfl⟩
  · subst h0
    simp at hacts
  · have hsub := (mem_uploadAbsSrcActs _ aid _ txt a hacts).1
    exact absurd (hsub.symm.trans hw) (by decide)
  · rcases List.mem_append.mp hacts with h1 | h1
    · have hsub := (mem_repVersionActs _ aid _ txt a h1).1
      exact absurd (hsub.symm.trans hw) (by decide)
    · have hsub := (mem_uploadAbsSrcActs _ aid _ txt a h1).1
      exact absurd (hsub.symm.trans hw) (by decide)
  · have hp := List.of_mem_filter hacts
    simp at hp
    exact hp
  · have hsub := (mem_uploadAbsActs _ aid _ a hacts).1
    exact absurd (hsub.symm.trans hw) (by decide)
  · have hsub := (mem_uploadAbsActs _ aid _ a hacts).1
    exact absurd (hsub.symm.trans hw) (by decide)

/-- C4: `make_todos` classifies each block by testing the patterns in
strict priority order with first match winning — test marker, then new,
then replacement, then withdrawal, then cross, then journal-ref; a
` Test Submission. Skipping.` marker anywhere in the block yields zero
actions regardless of any other content, and a block matching none of the
patterns yields no event and no actions. -/
theorem c4_priority_first_match (resolve : String → Option Identifier) (subid : String)
    (txt : List Line) :
    (hasTestMarker txt = true → blockTodos resolve subid txt = some [])
  ∧ (∀ g aid, hasTestMarker txt = false → searchNew txt = some g →
      resolve (String.mk g ++ "v1") = some aid →
      blockTodos resolve subid txt = some (uploadAbsSrcActs subid aid "new" txt))
  ∧ (∀ g1 g3 aid, hasTestMarker txt = false → searchNew txt = none →
      searchRepLike repMarker txt = some (g1, g3) →
      resolve (String.mk g1 ++ "v" ++ String.mk g3) = some aid →
      blockTodos resolve subid txt =
        some (repVersionActs subid aid "rep" txt ++ uploadAbsSrcActs subid aid "rep" txt))
  ∧ (∀ g1 g3 aid, hasTestMarker txt = false → searchNew txt = none →
      searchRepLike repMarker txt = none → searchRepLike wdrMarker txt = some (g1, g3) →
      resolve (String.mk g1 ++ "v" ++ String.mk g3) = some aid →
      blockTodos resolve subid txt =
        some ((repVersionActs subid aid "wdr" txt ++
          uploadAbsSrcActs subid aid "wdr" txt).filter (fun a => a.op != "build+upload")))
  ∧ (∀ g aid, hasTestMarker txt = false → searchNew txt = none →
      searchRepLike repMarker txt = none → searchRepLike wdrMarker txt = none →
      searchFirstCapture crossPat txt = some g → resolve (String.mk g) = some aid →
      blockTodos resolve subid txt = some (uploadAbsActs subid aid "cross"))
  ∧ (∀ g aid, hasTestMarker txt = false → searchNew txt = none →
      searchRepLike repMarker txt = none → searchRepLike wdrMarker txt = none →
      searchFirstCapture crossPat txt = none → searchFirstCapture jrefPat txt = some g →
      resolve (String.mk g) = some aid →
      blockTodos resolve subid txt = some (uploadAbsActs subid aid "jref"))
  ∧ (hasTestMarker txt = false → searchNew txt = none →
      searchRepLike repMarker txt = none → searchRepLike wdrMarker txt = none →
      searchFirstCapture crossPat txt = none → searchFirstCapture jrefPat txt = none →
      blockTodos resolve subid txt = some []) := by
  refine ⟨?_, ?_, ?_, ?_, ?_, ?_, ?_⟩
  · intro h1
    rw [blockTodos, if_pos h1]
  · intro g aid h1 h2 h3
    rw [blockTodos, if_neg (by simp [h1]), h2]
    simp only
    rw [h3]
  · intro g1 g3 aid h1 h2 h3 h4
    rw [blockTodos, if_neg (by simp [h1]), h2]
    simp only
    rw [h3]
    simp only
    rw [h4]
  · intro g1 g3 aid h1 h2 h3 h4 h5
    rw [blockTodos, if_neg (by simp [h1]), h2]
    simp only
    rw [h3]
    simp only
    rw [h4]
    simp only
    rw [h5]
  · intro g aid h1 h2 h3 h4 h5 h6
    rw [blockTodos, if_neg (by simp [h1]), h2]
    simp only
    rw [h3]
    simp only
    rw [h4]
    simp only
    rw [h5]
    simp only
    rw [h6]
  · intro g aid h1 h2 h3 h4 h5 h6 h7
    rw [blockTodos, if_neg (by simp [h1]), h2]
    simp only
    rw [h3]
    simp only
    rw [h4]
    simp only
    rw [h5]
    simp only
    rw [h6]
    simp only
    rw [h7]
  · intro h1 h2 h3 h4 h5 h6
    rw [blockTodos, if_neg (by simp [h1]), h2]
    simp only
    rw [h3]
    simp only
    rw [h4]
    simp only
    rw [h5]
    simp only
    rw [h6]

/-- C5: for a new or replacement block, the declared source type is
detected with priority pdf over html.gz over generic .gz; one upload is
emitted for the detected source file; exactly one extra `build+upload`
action (for `{id}v{version}`) is emitted iff the detected type is the
generic compressed family; with no detected source type, only the abs
upload (when an ` absfile: ` line was found) is emitted. -/
theorem c5_source_type_priority (subid : String) (aid : Identifier) (st : String)
    (txt : List Line) :
    (∀ g, searchCaptureSuch srcPat pdfShape txt = some g →
      uploadAbsSrcActs subid aid st txt =
        absActsOf subid aid st txt ++ [⟨subid, st, aid.idv, "upload", String.mk g⟩])
  ∧ (∀ g, searchCaptureSuch srcPat pdfShape txt = none →
      searchCaptureSuch srcPat htmlGzShape txt = some g →
      uploadAbsSrcActs subid aid st txt =
        absActsOf subid aid st txt ++ [⟨subid, st, aid.idv, "upload", String.mk g⟩])
  ∧ (∀ g, searchCaptureSuch srcPat pdfShape txt = none →
      searchCaptureSuch srcPat htmlGzShape txt = none →
      searchCaptureSuch srcPat gzShape txt = some g →
      uploadAbsSrcActs subid aid st txt =
        absActsOf subid aid st txt ++
          [⟨subid, st, aid.idv, "upload", String.mk g⟩,
           ⟨subid, st, aid.idv, "build+upload", aid.id ++ "v" ++ toString aid.version⟩])
  ∧ (searchCaptureSuch srcPat pdfShape txt = none →
      searchCaptureSuch srcPat htmlGzShape txt = none →
      searchCaptureSuch srcPat gzShape txt = none →
      uploadAbsSrcActs subid aid st txt = absActsOf subid aid st txt)
  ∧ (((uploadAbsSrcActs subid aid st txt).filter
        (fun a => a.op == "build+upload")).length = 1 ↔
      searchCaptureSuch srcPat pdfShape txt = none ∧
      searchCaptureSuch srcPat htmlGzShape txt = none ∧
      (searchCaptureSuch srcPat gzShape txt).isSome = true) := by
  refine ⟨?_, ?_, ?_, ?_, ?_⟩
  · intro g h1
    simp only [uploadAbsSrcActs]
    rw [h1]
  · intro g h1 h2
    simp only [uploadAbsSrcActs]
    rw [h1]
    simp only
    rw [h2]
  · intro g h1 h2 h3
    simp only [uploadAbsSrcActs]
    rw [h1]
    simp only
    rw [h2]
    simp only
    rw [h3]
  · intro h1 h2 h3
    simp only [uploadAbsSrcActs]
    rw [h1]
    simp only
    rw [h2]
    simp only
    rw [h3]
  · cases h1 : searchCaptureSuch srcPat pdfShape txt with
    | some g =>
      simp only [uploadAbsSrcActs]
      rw [h1]
      simp [List.filter_append, absActsOf_filter_build, List.filter]
    | none =>
      cases h2 : searchCaptureSuch srcPat htmlGzShape txt with
      | some g =>
        simp only [uploadAbsSrcActs]
        rw [h1]
        simp only
        rw [h2]
        simp [List.filter_append, absActsOf_filter_build, List.filter]
      | none =>
        cases h3 : searchCaptureSuch srcPat gzShape txt with
        | some g =>
          simp only [uploadAbsSrcActs]
          rw [h1]
          simp only
          rw [h2]
          simp only
          rw [h3]
          simp [List.filter_append, absActsOf_filter_build, List.filter]
        | none =>
          simp only [uploadAbsSrcActs]
          rw [h1]
          simp only
          rw [h2]
          simp only
          rw [h3]
          simp [absActsOf_filter_build]

/-- C10: a cross or journal-ref event emits exactly one upload whose
target is `/data/ftp//{archive}/papers/{yymm}/{filename}.abs`, with
archive `arxiv` unless the identifier uses the legacy scheme; the target
always starts with the doubled separator `/data/ftp//`, because
`FTP_PREFIX` already ends in `/` and the f-string inserts another. -/
theorem c10_cross_jref_abs_target (resolve : String → Option Identifier) (subid : String)
    (aid : Identifier) (st : String) (txt : List Line) :
    (uploadAbsActs subid aid st =
      [⟨subid, st, aid.idv, "upload",
        "/data/ftp//" ++ (if aid.is_old_id then aid.archive else "arxiv") ++ "/papers/" ++
          aid.yymm ++ "/" ++ aid.filename ++ ".abs"⟩])
  ∧ (∀ a ∈ uploadAbsActs subid aid st,
      ("/data/ftp//".toList).isPrefixOf a.target.toList = true)
  ∧ (∀ g, hasTestMarker txt = false → searchNew txt = none →
      searchRepLike repMarker txt = none → searchRepLike wdrMarker txt = none →
      searchFirstCapture crossPat txt = some g → resolve (String.mk g) = some aid →
      blockTodos resolve subid txt = some (uploadAbsActs subid aid "cross"))
  ∧ (∀ g, hasTestMarker txt = false → searchNew txt = none →
      searchRepLike repMarker txt = none → searchRepLike wdrMarker txt = none →
      searchFirstCapture crossPat txt = none → searchFirstCapture jrefPat txt = some g →
      resolve (String.mk g) = some aid →
      blockTodos resolve subid txt = some (uploadAbsActs subid aid "jref")) := by
  have hfr : (FTP_ROOT ++ "/" : String) = "/data/ftp//" := rfl
  refine ⟨?_, ?_, ?_, ?_⟩
  · simp only [uploadAbsActs]
    cases h : aid.is_old_id <;> simp [h, FTP_ROOT]
  · intro a ha
    obtain ⟨-, -, htar⟩ := mem_uploadAbsActs subid aid st a ha
    rw [htar]
    simp only [List.isPrefixOf_iff_prefix]
    have hd : ("/data/ftp//".toList) = FTP_ROOT.toList ++ "/".toList := by decide
    rw [hd]
    simp only [String.toList, String.data_append]
    simp [List.append_assoc]
  · intro g h1 h2 h3 h4 h5 h6
    rw [blockTodos, if_neg (by simp [h1]), h2]
    simp only
    rw [h3]
    simp only
    rw [h4]
    simp only
    rw [h5]
    simp only
    rw [h6]
  · intro g h1 h2 h3 h4 h5 h6 h7
    rw [blockTodos, if_neg (by simp [h1]), h2]
    simp only
    rw [h3]
    simp only
    rw [h4]
    simp only
    rw [h5]
    simp only
    rw [h6]
    simp only
    rw [h7]

/-! ### Helper lemmas about the segmenter -/

theorem segLoop_skip (rest : List Line) :
    ∀ pre : List Line, (∀ l ∈ pre, startGroup l = none) →
      segLoop none (pre ++ rest) = segLoop none rest := by
  intro pre
  induction pre with
  | nil => intro _; rfl
  | cons x pre ih =>
    intro h
    have hx := h x (by simp)
    rw [List.cons_append, segLoop, hx]
    exact ih (fun l hl => h l (by simp [hl]))

theorem segLoop_close (g : List Char) (e : Line) (rest : List Line)
    (he : isEndLine e = true) :
    ∀ (mid : List Line) (acc : List Line), (∀ l ∈ mid, isEndLine l = false) →
      segLoop (some (g, acc)) (mid ++ e :: rest) =
        (g, acc ++ mid ++ [e]) :: segLoop none rest := by
  intro mid
  induction mid with
  | nil =>
    intro acc _
    rw [List.nil_append, segLoop, if_pos he]
    simp
  | cons x mid ih =>
    intro acc h
    have hx := h x (by simp)
    rw [List.cons_append, segLoop, if_neg (by simp [hx])]
    rw [ih (acc ++ [x]) (fun l hl => h l (by simp [hl]))]
    simp

theorem segLoop_open_dropped (g : List Char) :
    ∀ (mid : List Line) (acc : List Line), (∀ l ∈ mid, isEndLine l = false) →
      segLoop (some (g, acc)) mid = [] := by
  intro mid
  induction mid with
  | nil => intro acc _; rfl
  | cons x mid ih =>
    intro acc h
    have hx := h x (by simp)
    rw [segLoop, if_neg (by simp [hx])]
    exact ih (acc ++ [x]) (fun l hl => h l (by simp [hl]))

/-- C9: the segmenter yields one block per region delimited by a start
line and the first subsequent end line, in file order, with the block's
text being the lines after the start line up to and including the end
line; a start with no matching end line before end of file yields no
block at all (the open block is silently dropped). -/
theorem c9_segmenter_blocks (pre mid rest : List Line) (s e : Line) (g : List Char)
    (hpre : ∀ l ∈ pre, startGroup l = none) (hs : startGroup s = some g)
    (hmid : ∀ l ∈ mid, isEndLine l = false) :
    (isEndLine e = true →
      segmentLog (pre ++ s :: (mid ++ e :: rest)) = (g, mid ++ [e]) :: segLoop none rest)
  ∧ segmentLog (pre ++ s :: mid) = [] := by
  constructor
  · intro he
    rw [segmentLog, segLoop_skip (s :: (mid ++ e :: rest)) pre hpre, segLoop, hs]
    simp only
    rw [segLoop_close g e rest he mid [] hmid]
    simp
  · rw [segmentLog, segLoop_skip (s :: mid) pre hpre, segLoop, hs]
    simp only
    exact segLoop_open_dropped g mid [] hmid

theorem segLoop_mem_lines :
    ∀ (ls : List Line) (st : Option (List Char × List Line)) (g : List Char) (txt : List Line),
      (g, txt) ∈ segLoop st ls → ∀ l ∈ txt,
        (∃ q : List Char × List Line, st = some q ∧ l ∈ q.2) ∨ l ∈ ls := by
  intro ls
  induction ls with
  | nil =>
    intro st g txt h
    rw [segLoop] at h
    simp at h
  | cons x rest ih =>
    intro st g txt h l hl
    match st with
    | none =>
      rw [segLoop] at h
      cases hsg : startGroup x with
      | some g0 =>
        rw [hsg] at h
        simp only at h
        rcases ih (some (g0, [])) g txt h l hl with ⟨q, hq, hlq⟩ | hr
        · cases hq
          simp at hlq
        · right
          simp [hr]
      | none =>
        rw [hsg] at h
        simp only at h
        rcases ih none g txt h l hl with ⟨q, hq, _⟩ | hr
        · cases hq
        · right
          simp [hr]
    | some (g0, acc) =>
      rw [segLoop] at h
      by_cases hend : isEndLine x = true
      · rw [if_pos hend] at h
        rcases List.mem_cons.mp h with h1 | h2
        · injection h1 with hg ht
          rw [ht] at hl
          rcases List.mem_append.mp hl with ha | hx
          · exact Or.inl ⟨(g0, acc), rfl, ha⟩
          · simp at hx
            right
            simp [hx]
        · rcases ih none g txt h2 l hl with ⟨q, hq, _⟩ | hr
          · cases hq
          · right
            simp [hr]
      · rw [if_neg hend] at h
        rcases ih (some (g0, acc ++ [x])) g txt h l hl with ⟨q, hq, hlq⟩ | hr
        · cases hq
          simp only at hlq
          rcases List.mem_append.mp hlq with ha | hx
          · exact Or.inl ⟨(g0, acc), rfl, ha⟩
          · simp at hx
            right
            simp [hx]
        · right
          simp [hr]

theorem segmentLog_mem_lines (lines : List Line) (g : List Char) (txt : List Line)
    (h : (g, txt) ∈ segmentLog lines) : ∀ l ∈ txt, l ∈ lines := by
  intro l hl
  rcases segLoop_mem_lines lines none g txt h l hl with ⟨q, hq, _⟩ | hr
  · cases hq
  · exact hr

/-! ### Target non-emptiness -/

theorem append_ne_empty_right {x y : String} (h : y ≠ "") : x ++ y ≠ "" := by
  intro he
  apply h
  have hd : x.data ++ y.data = [] := by
    have := congrArg String.data he
    simpa [String.data_append] using this
  have hy : y.data = [] := (List.append_eq_nil.mp hd).2
  have hmk : y = String.mk y.data := rfl
  rw [hmk, hy]

theorem uploadAbsSrcActs_target_ne (subid : String) (aid : Identifier) (st : String)
    (txt : List Line) (habs : ∀ l ∈ txt, lastAfter absPat l ≠ some []) :
    ∀ a ∈ uploadAbsSrcActs subid aid st txt, a.target ≠ "" := by
  intro a ha
  rcases (mem_uploadAbsSrcActs subid aid st txt a ha).2 with
    h0 | ⟨-, g, hsrc, htar⟩ | ⟨-, htar⟩
  · obtain ⟨-, -, g, hg, htar⟩ := mem_absActsOf subid aid st txt a h0
    obtain ⟨l, hl, hlast⟩ := searchCapture_exists_line absPat txt g hg
    rw [htar]
    apply mk_ne_empty
    intro hnil
    subst hnil
    exact habs l hl hlast
  · rw [htar]
    apply mk_ne_empty
    rcases hsrc with h | h | h
    · exact pdfShape_ne_nil (searchCaptureSuch_sat _ _ txt g h)
    · exact htmlGzShape_ne_nil (searchCaptureSuch_sat _ _ txt g h)
    · exact gzShape_ne_nil (searchCaptureSuch_sat _ _ txt g h)
  · rw [htar]
    apply append_ne_empty_left
    apply append_ne_empty_right
    decide

theorem repVersionActs_target_ne (subid : String) (aid : Identifier) (st : String)
    (txt : List Line) (hmv : ∀ l ∈ txt, moveG2 l ≠ some []) :
    ∀ a ∈ repVersionActs subid aid st txt, a.target ≠ "" := by
  intro a ha
  obtain ⟨-, -, g, hg, htar⟩ := mem_repVersionActs subid aid st txt a ha
  obtain ⟨l, hl, hm⟩ := moveTargets_exists_line txt g hg
  rw [htar]
  apply mk_ne_empty
  intro hnil
  subst hnil
  exact hmv l hl hm

theorem uploadAbsActs_target_ne (subid : String) (aid : Identifier) (st : String) :
    ∀ a ∈ uploadAbsActs subid aid st, a.target ≠ "" := by
  intro a ha
  obtain ⟨-, -, htar⟩ := mem_uploadAbsActs subid aid st a ha
  rw [htar]
  apply append_ne_empty_left
  apply append_ne_empty_left
  apply append_ne_empty_left
  apply append_ne_empty_left
  apply append_ne_empty_left
  apply append_ne_empty_left
  decide

theorem blockTodos_target_ne (resolve : String → Option Identifier) (subid : String)
    (txt : List Line) (acts : List Action)
    (habs : ∀ l ∈ txt, lastAfter absPat l ≠ some [])
    (hmv : ∀ l ∈ txt, moveG2 l ≠ some [])
    (h : blockTodos resolve subid txt = some acts) :
    ∀ a ∈ acts, a.target ≠ "" := by
  intro a ha
  rcases blockTodos_cases resolve subid txt acts h with
    h0 | ⟨aid, rfl⟩ | ⟨aid, rfl⟩ | ⟨aid, rfl⟩ | ⟨aid, rfl⟩ | ⟨aid, rfl⟩
  · subst h0
    simp at ha
  · exact uploadAbsSrcActs_target_ne subid aid _ txt habs a ha
  · rcases List.mem_append.mp ha with h1 | h1
    · exact repVersionActs_target_ne subid aid _ txt hmv a h1
    · exact uploadAbsSrcActs_target_ne subid aid _ txt habs a h1
  · have hmem := List.mem_of_mem_filter ha
    rcases List.mem_append.mp hmem with h1 | h1
    · exact repVersionActs_target_ne subid aid _ txt hmv a h1
    · exact uploadAbsSrcActs_target_ne subid aid _ txt habs a h1
  · exact uploadAbsActs_target_ne subid aid _ a ha
  · exact uploadAbsActs_target_ne subid aid _ a ha

/-- C8 (amended): every action produced by `make_todos` has a non-empty
target, provided every ` absfile: ` capture and every ` Moved X => Y`
destination capture in the log is itself non-empty (a log line ending
right after ` absfile: ` or ` => ` yields an action with empty target);
identifier-derived targets (cross/jref abs paths, build+upload ids) and
Document-source captures are always non-empty. -/
theorem c8_nonempty_targets (resolve : String → Option Identifier) (lines : List Line)
    (todo : List Action)
    (habs : ∀ l ∈ lines, lastAfter absPat l ≠ some [])
    (hmv : ∀ l ∈ lines, moveG2 l ≠ some [])
    (h : makeTodos resolve lines = some todo) :
    ∀ a ∈ todo, a.target ≠ "" := by
  intro a ha
  obtain ⟨g, txt, acts, hmem, hbt, hacts⟩ :=
    todosOfBlocks_mem resolve (segmentLog lines) todo h a ha
  have hsub := segmentLog_mem_lines lines g txt hmem
  exact blockTodos_target_ne resolve (String.mk g) txt acts
    (fun l hl => habs l (hsub l hl)) (fun l hl => hmv l (hsub l hl)) hbt a hacts

/-! ### Lemmas about Python `str.replace` and the bucket-key rewrite -/

theorem replaceAll_not_contains (p0 : Char) (ps : List Char) :
    ∀ s, containsSub (p0 :: ps) s = false → replaceAll p0 ps [] s = s := by
  intro s
  induction s with
  | nil => intro _; rw [replaceAll]
  | cons c rest ih =>
    intro h
    rw [containsSub, Bool.or_eq_false_iff] at h
    rw [replaceAll, if_neg (by simp [h.1]), ih h.2]

theorem replaceAll_head_match (p0 : Char) (ps rest : List Char) :
    replaceAll p0 ps [] (p0 :: (ps ++ rest)) = replaceAll p0 ps [] rest := by
  rw [replaceAll, if_pos (by simp [List.isPrefixOf_iff_prefix])]
  rw [List.nil_append, List.drop_left]

/-- C2 (amended): when the path starts with a recognised root, the key is
the path with every non-overlapping occurrence of that root removed — in
particular exactly the path minus its leading root whenever the root does
not reoccur in the remainder; paths starting with neither root raise
`ValueError`. -/
theorem c2_bucket_key_strips_root (p rest : List Char) :
    (p = cacheRootChars ++ rest → containsSub cacheRootChars rest = false →
      path_to_bucket_key p = some rest)
  ∧ (p = dataRootChars ++ rest → containsSub dataRootChars rest = false →
      path_to_bucket_key p = some rest)
  ∧ (path_to_bucket_key p = none ↔
      cacheRootChars.isPrefixOf p = false ∧ dataRootChars.isPrefixOf p = false) := by
  refine ⟨?_, ?_, ?_⟩
  · rintro rfl hnc
    rw [path_to_bucket_key, if_pos (by simp [List.isPrefixOf_iff_prefix])]
    have hsplit : cacheRootChars ++ rest = '/' :: (("cache/".toList) ++ rest) := rfl
    rw [hsplit, replaceAll_head_match, replaceAll_not_contains '/' ("cache/".toList) rest hnc]
  · rintro rfl hnc
    have hnp : ¬ cacheRootChars.isPrefixOf (dataRootChars ++ rest) = true := by
      rw [List.isPrefixOf_iff_prefix]
      intro hp
      have hsplit : dataRootChars ++ rest = '/' :: 'd' :: (("ata/".toList) ++ rest) := rfl
      have hc : cacheRootChars = '/' :: 'c' :: ("ache/".toList) := rfl
      rw [hsplit, hc] at hp
      rcases List.cons_prefix_cons.mp hp with ⟨-, hp2⟩
      rcases List.cons_prefix_cons.mp hp2 with ⟨hcd, -⟩
      exact absurd hcd (by decide)
    rw [path_to_bucket_key, if_neg hnp, if_pos (by simp [List.isPrefixOf_iff_prefix])]
    have hsplit : dataRootChars ++ rest = '/' :: (("data/".toList) ++ rest) := rfl
    rw [hsplit, replaceAll_head_match, replaceAll_not_contains '/' ("data/".toList) rest hnc]
  · constructor
    · intro h
      by_cases h1 : cacheRootChars.isPrefixOf p = true
      · rw [path_to_bucket_key, if_pos h1] at h
        cases h
      · by_cases h2 : dataRootChars.isPrefixOf p = true
        · rw [path_to_bucket_key, if_neg h1, if_pos h2] at h
          cases h
        · exact ⟨Bool.eq_false_iff.mpr h1, Bool.eq_false_iff.mpr h2⟩
    · rintro ⟨h1, h2⟩
      rw [path_to_bucket_key, if_neg (by simp [h1]), if_neg (by simp [h2])]

/-- C2 counterexample: on `/data/ftp/data/x` (which starts with the
`/data/` root), the key is `ftpx` — Python's `str.replace` also removed
the embedded second `/data/` — not `ftp/data/x`, the path with only the
leading root removed as the claim states. -/
theorem c2_counterexample :
    path_to_bucket_key ("/data/ftp/data/x".toList) = some ("ftpx".toList) ∧
    ("ftpx".toList) ≠ ("ftp/data/x".toList) := by
  constructor
  · simp +decide [path_to_bucket_key, replaceAll]
  · decide

/-! ### Conditional upload -/

/-- C1: `upload` fetches the remote metadata first; when the object is
absent or its size differs it uploads the full content with the
extension-derived content type (`.pdf`, `.gz`, `.abs`) and returns
`("uploaded", size)`; when an identical-size object exists it leaves the
store untouched and returns `("already_on_gs", 0)`; consequently a second
run against the unchanged file and key transfers nothing and reports
`("already_on_gs", 0)`. -/
theorem c1_upload_conditional_idempotent (store : GsStore) (f : LocalFile) (key : String) :
    (store key = none →
      upload store f key =
        (("uploaded", f.size), putBlob store key ⟨f.bytes, mime_from_fname f.path⟩))
  ∧ (∀ b, store key = some b → b.size ≠ f.size →
      upload store f key =
        (("uploaded", f.size), putBlob store key ⟨f.bytes, mime_from_fname f.path⟩))
  ∧ (∀ b, store key = some b → b.size = f.size →
      upload store f key = (("already_on_gs", 0), store))
  ∧ (pathSuffix f.path.toList = ".pdf".toList → mime_from_fname f.path = "application/pdf")
  ∧ (pathSuffix f.path.toList = ".gz".toList → mime_from_fname f.path = "application/gzip")
  ∧ (pathSuffix f.path.toList = ".abs".toList → mime_from_fname f.path = "text/plain")
  ∧ upload (upload store f key).2 f key = (("already_on_gs", 0), (upload store f key).2) := by
  refine ⟨?_, ?_, ?_, ?_, ?_, ?_, ?_⟩
  · intro h
    simp [upload, h]
  · intro b hb hne
    simp [upload, hb, hne]
  · intro b hb he
    simp [upload, hb, he]
  · intro h
    rw [mime_from_fname, if_pos h]
  · intro h
    rw [mime_from_fname, if_neg (by rw [h]; decide), if_pos h]
  · intro h
    rw [mime_from_fname, if_neg (by rw [h]; decide), if_neg (by rw [h]; decide), if_pos h]
  · cases hsk : store key with
    | none =>
      have h2 : (upload store f key).2 =
          putBlob store key ⟨f.bytes, mime_from_fname f.path⟩ := by
        simp only [upload, hsk]
      rw [h2]
      simp [upload, putBlob, Blob.size, LocalFile.size]
    | some b =>
      by_cases hbs : b.size = f.size
      · have h2 : (upload store f key).2 = store := by
          simp only [upload, hsk]
          rw [if_neg (by simp [hbs])]
        rw [h2]
        simp [upload, hsk, hbs]
      · have h2 : (upload store f key).2 =
            putBlob store key ⟨f.bytes, mime_from_fname f.path⟩ := by
          simp only [upload, hsk]
          rw [if_pos hbs]
        rw [h2]
        simp [upload, putBlob, Blob.size, LocalFile.size]

/-! ### The ensure-PDF poll loop -/

theorem elapsed_lower_bound (elapsedAt : Nat → Nat)
    (hstep : ∀ k, elapsedAt k + 200 ≤ elapsedAt (k + 1)) :
    ∀ k, 200 * k ≤ elapsedAt k := by
  intro k
  induction k with
  | zero => simp
  | succ n ih =>
    have := hstep n
    omega

theorem pdfPollLoop_timeout (existsAt : Nat → Bool) (elapsedAt : Nat → Nat)
    (hex : ∀ j, existsAt j = false) :
    ∀ fuel k, pdfWaitMs < elapsedAt (k + fuel) →
      pdfPollLoop existsAt elapsedAt (fuel + 1) k = some (Except.error ()) := by
  intro fuel
  induction fuel with
  | zero =>
    intro k h
    rw [Nat.add_zero] at h
    rw [pdfPollLoop, if_neg (by simp [hex k]), if_pos h]
  | succ n ih =>
    intro k h
    by_cases hk : pdfWaitMs < elapsedAt k
    · rw [pdfPollLoop, if_neg (by simp [hex k]), if_pos hk]
    · have hrec := ih (k + 1) (by rw [show k + 1 + n = k + (n + 1) from by omega]; exact h)
      rw [pdfPollLoop, if_neg (by simp [hex k]), if_neg hk]
      exact hrec

theorem pdfPollLoop_finds (existsAt : Nat → Bool) (elapsedAt : Nat → Nat) :
    ∀ fuel k0 k, k0 ≤ k → k < k0 + fuel →
      (∀ j, k0 ≤ j → j < k → existsAt j = false ∧ elapsedAt j ≤ pdfWaitMs) →
      existsAt k = true →
      pdfPollLoop existsAt elapsedAt fuel k0 = some (Except.ok k) := by
  intro fuel
  induction fuel with
  | zero =>
    intro k0 k h1 h2 _ _
    omega
  | succ n ih =>
    intro k0 k h1 h2 hmid hk
    by_cases heq : k0 = k
    · subst heq
      rw [pdfPollLoop, if_pos hk]
    · have hlt : k0 < k := lt_of_le_of_ne h1 heq
      obtain ⟨he0, hel⟩ := hmid k0 le_rfl hlt
      have hnlt : ¬ pdfWaitMs < elapsedAt k0 := by omega
      have hrec := ih (k0 + 1) k (by omega) (by omega)
        (fun j hj1 hj2 => hmid j (by omega) hj2) hk
      rw [pdfPollLoop, if_neg (by simp [he0]), if_neg hnlt]
      exact hrec

/-- C6: when the artifact never appears, the poll loop of `ensure_pdf`
terminates once the elapsed wait exceeds `PDF_WAIT_SEC`, raising
`EnsurePdfException` (timeout) instead of looping forever (any fuel of at
least 3002 iterations suffices under the 200 ms sleep per iteration); a
transient absence before the deadline is not an error — if the file
appears at some poll before the deadline, the call succeeds. -/
theorem c6_poll_timeout_terminates (aid : Identifier) (host : String)
    (existsAt : Nat → Bool) (elapsedAt : Nat → Nat) :
    ((∀ k, existsAt k = false) → (∀ k, elapsedAt k + 200 ≤ elapsedAt (k + 1)) →
      ∀ fuel, 3002 ≤ fuel →
        ensure_pdf aid host existsAt 200 elapsedAt fuel =
          some (Except.error EnsureErr.timedOut, [arxiv_pdf_url host aid]))
  ∧ (∀ k fuel, existsAt 0 = false →
      (∀ j, 1 ≤ j → j < k → existsAt j = false ∧ elapsedAt j ≤ pdfWaitMs) →
      1 ≤ k → existsAt k = true → existsAt (k + 1) = true → k < 1 + fuel →
      ensure_pdf aid host existsAt 200 elapsedAt fuel =
        some (Except.ok ⟨pdf_cache_path aid, arxiv_pdf_url host aid, none⟩,
          [arxiv_pdf_url host aid])) := by
  constructor
  · intro hex hstep fuel hfuel
    obtain ⟨m, rfl⟩ : ∃ m, fuel = m + 1 := ⟨fuel - 1, by omega⟩
    have hgrow := elapsed_lower_bound elapsedAt hstep (1 + m)
    have hwait : pdfWaitMs = 600000 := by norm_num [pdfWaitMs, PDF_WAIT_SEC]
    have hpl : pdfPollLoop existsAt elapsedAt (m + 1) 1 = some (Except.error ()) :=
      pdfPollLoop_timeout existsAt elapsedAt hex m 1 (by omega)
    simp [ensure_pdf, hex 0, hpl]
  · intro k fuel h0 hmid h1k hk hk1 hkf
    have hpl : pdfPollLoop existsAt elapsedAt fuel 1 = some (Except.ok k) :=
      pdfPollLoop_finds existsAt elapsedAt fuel 1 k h1k hkf hmid hk
    simp [ensure_pdf, h0, hpl, hk1]

/-- C7: when the cache file already exists (the very first existence
check succeeds), `ensure_pdf` returns immediately with status
`already exists` and issues no network request; the cache path is fully
determined by the identifier's archive / year-month / filename / version
fields (it does not depend on the `id`/`idv` fields). -/
theorem c7_cache_hit_no_request (aid : Identifier) (host : String) (existsAt : Nat → Bool)
    (respStatus : Nat) (elapsedAt : Nat → Nat) (fuel : Nat) (h : existsAt 0 = true) :
    ensure_pdf aid host existsAt respStatus elapsedAt fuel =
      some (Except.ok ⟨pdf_cache_path aid, arxiv_pdf_url host aid, some "already exists"⟩, [])
  ∧ (∀ s t, pdf_cache_path { aid with id := s, idv := t } = pdf_cache_path aid) := by
  constructor
  · simp [ensure_pdf, h]
  · intro s t
    rfl

/-! ### Witnesses and counterexamples at concrete inputs -/

/-- Witness for C1: fresh upload into an empty store, then a skipped
re-upload. -/
theorem c1_witness :
    (upload emptyStoreEx fileEx ("ps_cache/arxiv/pdf/2201/2201.00001v2.pdf")).1 =
      ("uploaded", 3) ∧
    upload (upload emptyStoreEx fileEx ("ps_cache/arxiv/pdf/2201/2201.00001v2.pdf")).2 fileEx
        ("ps_cache/arxiv/pdf/2201/2201.00001v2.pdf") =
      (("already_on_gs", 0),
        (upload emptyStoreEx fileEx ("ps_cache/arxiv/pdf/2201/2201.00001v2.pdf")).2) := by
  constructor
  · have h := (c1_upload_conditional_idempotent emptyStoreEx fileEx
      ("ps_cache/arxiv/pdf/2201/2201.00001v2.pdf")).1 rfl
    exact (congrArg Prod.fst h).trans rfl
  · exact (c1_upload_conditional_idempotent emptyStoreEx fileEx
      ("ps_cache/arxiv/pdf/2201/2201.00001v2.pdf")).2.2.2.2.2.2

/-- Witness for C2 (amended) at a concrete path under the `/data/` root. -/
theorem c2_witness :
    path_to_bucket_key ("/data/ftp/arxiv/papers/2201/2201.00001.abs".toList) =
      some ("ftp/arxiv/papers/2201/2201.00001.abs".toList) :=
  (c2_bucket_key_strips_root ("/data/ftp/arxiv/papers/2201/2201.00001.abs".toList)
      ("ftp/arxiv/papers/2201/2201.00001.abs".toList)).2.1 (by decide) (by decide)

/-- Witness for C3: the concrete withdrawal log with a `.gz` source. -/
theorem c3_witness :
    (Action.mk "1001" "wdr" "2201.00001v2" "upload"
        "/data/ftp/arxiv/papers/2201/2201.00001.tar.gz").op ≠ "build+upload" :=
  c3_wdr_never_build resolveEx wdrLinesEx
    [⟨"1001", "wdr", "2201.00001v2", "upload", "/data/ftp/arxiv/papers/2201/2201.00001.abs"⟩,
     ⟨"1001", "wdr", "2201.00001v2", "upload",
        "/data/ftp/arxiv/papers/2201/2201.00001.tar.gz"⟩]
    (by decide)
    (Action.mk "1001" "wdr" "2201.00001v2" "upload"
      "/data/ftp/arxiv/papers/2201/2201.00001.tar.gz")
    (by decide) rfl

/-- Witness for C4: a test marker suppresses a block that also matches the
new-submission pattern, and a block matching nothing yields no actions. -/
theorem c4_witness :
    blockTodos resolveEx "1003" testTxtEx = some [] ∧
    blockTodos resolveEx "1004" noneTxtEx = some [] := by
  constructor
  · exact (c4_priority_first_match resolveEx "1003" testTxtEx).1 (by decide)
  · exact (c4_priority_first_match resolveEx "1004" noneTxtEx).2.2.2.2.2.2 (by decide)
      (by decide) (by decide) (by decide) (by decide) (by decide)

/-- Witness for C5 at concrete pdf and tex blocks. -/
theorem c5_witness :
    uploadAbsSrcActs "1005" aidEx "new" pdfTxtEx =
      absActsOf "1005" aidEx "new" pdfTxtEx ++
        [⟨"1005", "new", aidEx.idv, "upload",
          String.mk ("/data/ftp/arxiv/papers/2201/2201.00003.pdf".toList)⟩] ∧
    uploadAbsSrcActs "1005" aidEx "new" texTxtEx =
      absActsOf "1005" aidEx "new" texTxtEx ++
        [⟨"1005", "new", aidEx.idv, "upload",
          String.mk ("/data/ftp/arxiv/papers/2201/2201.00003.tar.gz".toList)⟩,
         ⟨"1005", "new", aidEx.idv, "build+upload",
          aidEx.id ++ "v" ++ toString aidEx.version⟩] := by
  constructor
  · exact (c5_source_type_priority "1005" aidEx "new" pdfTxtEx).1
      ("/data/ftp/arxiv/papers/2201/2201.00003.pdf".toList) (by decide)
  · exact (c5_source_type_priority "1005" aidEx "new" texTxtEx).2.2.1
      ("/data/ftp/arxiv/papers/2201/2201.00003.tar.gz".toList) (by decide) (by decide)
      (by decide)

/-- Witness for C6: under a 200 ms step clock, a never-appearing file
times out, and a file appearing at the second poll succeeds. -/
theorem c6_witness :
    ensure_pdf aidEx "web5.arxiv.org" (fun _ => false) 200 (fun k => 200 * k) 4000 =
      some (Except.error EnsureErr.timedOut, [arxiv_pdf_url "web5.arxiv.org" aidEx]) ∧
    ensure_pdf aidEx "web5.arxiv.org" (fun k => decide (2 ≤ k)) 200 (fun k => 200 * k) 4000 =
      some (Except.ok ⟨pdf_cache_path aidEx, arxiv_pdf_url "web5.arxiv.org" aidEx, none⟩,
        [arxiv_pdf_url "web5.arxiv.org" aidEx]) := by
  constructor
  · exact (c6_poll_timeout_terminates aidEx "web5.arxiv.org" (fun _ => false)
      (fun k => 200 * k)).1 (fun k => rfl) (fun k => by omega) 4000 (by omega)
  · refine (c6_poll_timeout_terminates aidEx "web5.arxiv.org" (fun k => decide (2 ≤ k))
      (fun k => 200 * k)).2 2 4000 (by decide) ?_ (by omega) (by decide) (by decide) (by omega)
    intro j hj1 hj2
    have hj : j = 1 := by omega
    subst hj
    refine ⟨by decide, ?_⟩
    norm_num [pdfWaitMs, PDF_WAIT_SEC]

/-- Witness for C7: the file is already in the cache. -/
theorem c7_witness :
    ensure_pdf aidEx "web5.arxiv.org" (fun _ => true) 200 (fun k => 200 * k) 0 =
      some (Except.ok
        ⟨pdf_cache_path aidEx, arxiv_pdf_url "web5.arxiv.org" aidEx,
          some "already exists"⟩, []) :=
  (c7_cache_hit_no_request aidEx "web5.arxiv.org" (fun _ => true) 200
    (fun k => 200 * k) 0 rfl).1

/-- C8 counterexample: a log whose ` absfile: ` line ends right after the
marker produces an action whose target (the fifth tuple component) is
empty, contradicting the claim that every target is non-empty. -/
theorem c8_counterexample :
    makeTodos resolveEx absEmptyLinesEx =
      some [⟨"1002", "new", "2201.00002v1", "upload", ""⟩] ∧
    (Action.mk "1002" "new" "2201.00002v1" "upload" "").target = "" := by
  constructor
  · decide
  · rfl

/-- Witness for C8 (amended) on the cross-listing log. -/
theorem c8_witness :
    (Action.mk "7" "cross" "math/0703001v1" "upload"
        "/data/ftp//math/papers/0703/0703001.abs").target ≠ "" :=
  c8_nonempty_targets resolveEx crossLinesEx
    [⟨"7", "cross", "math/0703001v1", "upload", "/data/ftp//math/papers/0703/0703001.abs"⟩]
    (by decide) (by decide) (by decide)
    (Action.mk "7" "cross" "math/0703001v1" "upload" "/data/ftp//math/papers/0703/0703001.abs")
    (by decide)

/-- Witness for C9 on a concrete log: one closed block, and an unclosed
block dropped. -/
theorem c9_witness :
    segmentLog [("junk").toList, ("go submission 7").toList, (" stuff").toList,
        ("xFinished processing submission 7.").toList] =
      [(("7").toList, [(" stuff").toList, ("xFinished processing submission 7.").toList])] ∧
    segmentLog [("junk").toList, ("go submission 7").toList, (" stuff").toList] = [] := by
  constructor
  · have h := (c9_segmenter_blocks [("junk").toList] [(" stuff").toList] []
      (("go submission 7").toList) (("xFinished processing submission 7.").toList)
      (("7").toList) (by decide) (by decide) (by decide)).1 (by decide)
    simpa [segLoop] using h
  · have h := (c9_segmenter_blocks [("junk").toList] [(" stuff").toList] []
      (("go submission 7").toList) (("xFinished processing submission 7.").toList)
      (("7").toList) (by decide) (by decide) (by decide)).2
    simpa using h

/-- Witness for C10 on the concrete cross-listing block (legacy id). -/
theorem c10_witness :
    blockTodos resolveEx "7" (crossLinesEx.drop 1) =
      some (uploadAbsActs "7"
        ⟨"math/0703001", 1, "math/0703001v1", true, "math", "0703", "0703001"⟩ "cross") :=
  (c10_cross_jref_abs_target resolveEx "7"
      ⟨"math/0703001", 1, "math/0703001v1", true, "math", "0703", "0703001"⟩ "cross"
      (crossLinesEx.drop 1)).2.2.1 ("math/0703001".toList) (by decide) (by decide) (by decide)
    (by decide) (by decide) (by decide)

end SyncToGcp
